import Mathlib

/-!
Shallow embedding of the pr-bro fetch/cache/score engine (Rust) in Lean 4.

Modelling conventions:
* Rust `f64` score arithmetic is modelled over `ℚ` (exact rationals); float
  rounding is idealised away, `powf` on the integer unit counts used by the
  engine becomes `Monoid.npow`.
* Rust `u64`/`u32` values are modelled as `Nat`; where the source can wrap,
  the reduction `% 2 ^ 64` is written explicitly.
* `chrono` timestamps are modelled at second granularity as `Int`;
  `std::time::Duration` is modelled as a nanosecond count (`Nat`), with
  `as_secs` being division by `10 ^ 9`.
* Rust string helpers (`trim`, `split_once`, `split`, `strip_prefix`) are
  re-implemented structurally over `List Char` so that all definitions reduce
  in the kernel.  `char::is_numeric` / `trim`'s Unicode classes are modelled on
  their ASCII fragment (all strings the engine manipulates are ASCII).
-/

namespace PrBro

/-- View an `Except` as a sum, to derive decidable equality. -/
def exceptToSum {ε α : Type} : Except ε α → ε ⊕ α
  | .error e => .inl e
  | .ok a => .inr a

instance {ε α : Type} [DecidableEq ε] [DecidableEq α] : DecidableEq (Except ε α) :=
  fun a b =>
    decidable_of_iff (exceptToSum a = exceptToSum b)
      (by cases a <;> cases b <;> simp [exceptToSum])

/-- ASCII whitespace test, modelling the characters Rust's `str::trim` removes
on the ASCII fragment. -/
def isWsChar (c : Char) : Bool :=
  c = ' ' || c = '\t' || c = '\n' || c = '\r'

/-- Drop leading whitespace characters. -/
def dropLeadWs : List Char → List Char
  | [] => []
  | c :: cs => if isWsChar c then dropLeadWs cs else c :: cs

/-- Model of Rust `str::trim` (ASCII fragment). -/
def trimChars (cs : List Char) : List Char :=
  ((dropLeadWs ((dropLeadWs cs.reverse)).reverse))

/-- Model of Rust `str::trim` on `String`. -/
def trimStr (s : String) : String :=
  String.mk (trimChars s.data)

/-- If `p` is a leading segment of `cs`, return the remainder, else `none`.
Models Rust `str::strip_prefix` at character level. -/
def chopLead : List Char → List Char → Option (List Char)
  | [], rest => some rest
  | _ :: _, [] => none
  | a :: ps, b :: rest => if a = b then chopLead ps rest else none

/-- Model of Rust `str::split_once` over character lists: split at the first
occurrence of (non-empty) `sep`. -/
def splitOnceChars (sep : List Char) : List Char → Option (List Char × List Char)
  | [] =>
    match chopLead sep [] with
    | some rest => some ([], rest)
    | none => none
  | c :: cs =>
    match chopLead sep (c :: cs) with
    | some rest => some ([], rest)
    | none =>
      match splitOnceChars sep cs with
      | some (l, r) => some (c :: l, r)
      | none => none

/-- Model of Rust `str::split_once` on `String`. -/
def splitOnce (s sep : String) : Option (String × String) :=
  match splitOnceChars sep.data s.data with
  | some (l, r) => some (String.mk l, String.mk r)
  | none => none

/-- Model of Rust `str::split(sep)` for a single separator character: yields
`n + 1` (possibly empty) groups for `n` separators. -/
def splitAllChar (sep : Char) : List Char → List (List Char)
  | [] => [[]]
  | c :: cs =>
    if c = sep then [] :: splitAllChar sep cs
    else
      match splitAllChar sep cs with
      | [] => [[c]]
      | g :: gs => (c :: g) :: gs

/-- Accumulate decimal digits into a natural number. -/
def digitsToNat : List Char → Nat → Nat
  | [], acc => acc
  | c :: cs, acc => digitsToNat cs (acc * 10 + (c.toNat - '0'.toNat))

/-- Model of Rust `u64::from_str`: optional leading `+`, then one or more
decimal digits, value must fit in `u64`. -/
def parse_u64 (s : String) : Option Nat :=
  let cs :=
    match s.data with
    | '+' :: rest => rest
    | other => other
  if cs.isEmpty then none
  else if cs.all (fun c => c.isDigit) then
    let n := digitsToNat cs 0
    if n < 2 ^ 64 then some n else none
  else none

/-- Model of Rust `f64::from_str` restricted to finite decimal literals,
valued in `ℚ`: optional sign, digits with optional fraction part, optional
decimal exponent.  Non-finite literals (`inf`, `NaN`) have no rational value
and are not modelled. -/
def parse_f64 (s : String) : Option ℚ :=
  let cs := s.data
  let signed : Int × List Char :=
    match cs with
    | '-' :: rest => (-1, rest)
    | '+' :: rest => (1, rest)
    | other => (1, other)
  let sign := signed.1
  let cs1 := signed.2
  let intPart := cs1.takeWhile (fun c => c.isDigit)
  let afterInt := cs1.dropWhile (fun c => c.isDigit)
  let fracSplit : List Char × List Char :=
    match afterInt with
    | '.' :: rest => (rest.takeWhile (fun c => c.isDigit), rest.dropWhile (fun c => c.isDigit))
    | other => ([], other)
  let fracPart := fracSplit.1
  let rest := fracSplit.2
  if intPart.isEmpty && fracPart.isEmpty then none
  else
    -- value = sign * intPart.fracPart * 10 ^ exponent, assembled as one
    -- exact rational (numerator over a power of ten)
    let mantNum : Int := sign * (digitsToNat intPart 0 * 10 ^ fracPart.length + digitsToNat fracPart 0)
    match rest with
    | [] => some (mkRat mantNum (10 ^ fracPart.length))
    | e :: rest2 =>
      if e = 'e' || e = 'E' then
        let exps : Bool × List Char :=
          match rest2 with
          | '-' :: r => (true, r)
          | '+' :: r => (false, r)
          | other => (false, other)
        if (!exps.2.isEmpty) && exps.2.all (fun c => c.isDigit) then
          let ex := digitsToNat exps.2 0
          some (if exps.1 then mkRat mantNum (10 ^ (fracPart.length + ex))
                else mkRat (mantNum * 10 ^ ex) (10 ^ fracPart.length))
        else none
      else none

/-- Nanoseconds for one time unit, modelling the unit table of the
`humantime` crate (`month` = 30.44 days, `year` = 365.25 days). -/
def unitNanos (u : String) : Option Nat :=
  if u = "nanos" || u = "nsec" || u = "ns" then some 1
  else if u = "usec" || u = "us" then some 1000
  else if u = "millis" || u = "msec" || u = "ms" then some 1000000
  else if u = "seconds" || u = "second" || u = "secs" || u = "sec" || u = "s" then
    some 1000000000
  else if u = "minutes" || u = "minute" || u = "mins" || u = "min" || u = "m" then
    some 60000000000
  else if u = "hours" || u = "hour" || u = "hrs" || u = "hr" || u = "h" then
    some 3600000000000
  else if u = "days" || u = "day" || u = "d" then some 86400000000000
  else if u = "weeks" || u = "week" || u = "w" then some 604800000000000
  else if u = "months" || u = "month" || u = "M" then some 2630016000000000
  else if u = "years" || u = "year" || u = "y" then some 31557600000000000
  else none

/-- One pass of the duration grammar: repeated (digits, unit) items separated
by optional whitespace.  A number without a following unit is an error, as in
`humantime::parse_duration` ("time unit needed"). -/
def parseDurationAux : Nat → List Char → Nat → Option Nat
  | 0, _, _ => none
  | fuel + 1, cs, acc =>
    match dropLeadWs cs with
    | [] => none
    | cs1 =>
      let digits := cs1.takeWhile (fun c => c.isDigit)
      let afterDigits := cs1.dropWhile (fun c => c.isDigit)
      if digits.isEmpty then none
      else
        let unitChars := (dropLeadWs afterDigits).takeWhile (fun c => c.isAlpha)
        let afterUnit := (dropLeadWs afterDigits).dropWhile (fun c => c.isAlpha)
        match unitNanos (String.mk unitChars) with
        | none => none
        | some per =>
          let acc' := acc + digitsToNat digits 0 * per
          match dropLeadWs afterUnit with
          | [] => some acc'
          | more => parseDurationAux fuel more acc'

/-- Model of `humantime::parse_duration`, valued in nanoseconds. -/
def parseDuration (s : String) : Option Nat :=
  parseDurationAux (s.data.length + 1) s.data 0

/-- Seconds of a modelled `std::time::Duration` (`Duration::as_secs`). -/
def durationAsSecs (nanos : Nat) : Nat :=
  nanos / 1000000000

/-- Model of `RangeOp` from `src/scoring/factors.rs`: a tagged union of
comparisons over unsigned integers. -/
inductive RangeOp where
  | lessThan (n : Nat)
  | lessEqual (n : Nat)
  | greaterThan (n : Nat)
  | greaterEqual (n : Nat)
  | equal (n : Nat)
  | between (low high : Nat)
deriving DecidableEq, Repr

/-- Model of `RangeOp::parse`.  Recognises the comparison prefixes in source
priority order, then the `lo-hi` pattern, then an exact-match integer.  Error
payloads summarise the source's error text. -/
def RangeOp.parse (s : String) : Except String RangeOp :=
  let s := trimStr s
  match chopLead ['>', '='] s.data with
  | some val =>
    match parse_u64 (trimStr (String.mk val)) with
    | some n => .ok (.greaterEqual n)
    | none => .error ("invalid integer: " ++ String.mk val)
  | none =>
  match chopLead ['<', '='] s.data with
  | some val =>
    match parse_u64 (trimStr (String.mk val)) with
    | some n => .ok (.lessEqual n)
    | none => .error ("invalid integer: " ++ String.mk val)
  | none =>
  match chopLead ['>'] s.data with
  | some val =>
    match parse_u64 (trimStr (String.mk val)) with
    | some n => .ok (.greaterThan n)
    | none => .error ("invalid integer: " ++ String.mk val)
  | none =>
  match chopLead ['<'] s.data with
  | some val =>
    match parse_u64 (trimStr (String.mk val)) with
    | some n => .ok (.lessThan n)
    | none => .error ("invalid integer: " ++ String.mk val)
  | none =>
  if s.data.contains '-' && !(s.data.take 1 = ['-']) then
    match (splitAllChar '-' s.data).map (fun g => String.mk g) with
    | [p0, p1] =>
      match parse_u64 (trimStr p0), parse_u64 (trimStr p1) with
      | some low, some high => .ok (.between low high)
      | _, _ => .error ("invalid integer in range: " ++ s)
    | _ => .error ("Invalid range format: " ++ s)
  else
    match parse_u64 s with
    | some n => .ok (.equal n)
    | none => .error ("invalid integer: " ++ s)

/-- Model of `RangeOp::matches`: unsigned-integer membership. -/
def RangeOp.matches (r : RangeOp) (value : Nat) : Bool :=
  match r with
  | .lessThan n => value < n
  | .lessEqual n => value ≤ n
  | .greaterThan n => value > n
  | .greaterEqual n => value ≥ n
  | .equal n => value = n
  | .between low high => value ≥ low && value ≤ high

/-- Model of `Effect` from `src/scoring/factors.rs`.  Per-unit variants carry
the unit duration in nanoseconds. -/
inductive Effect where
  | add (n : ℚ)
  | multiply (n : ℚ)
  | addPerUnit (n : ℚ) (duration : Nat)
  | multiplyPerUnit (n : ℚ) (duration : Nat)
deriving DecidableEq, Repr

/-- Model of `Effect::parse`: an optional `" per "` separator selects the
per-unit variants (right side parsed as a duration), and the effect part must
start with `+` or `x` followed by a number. -/
def Effect.parse (s : String) : Except String Effect :=
  let s := trimStr s
  match splitOnce s " per " with
  | some (effectPart, perPart) =>
    match parseDuration (trimStr perPart) with
    | none => .error ("invalid duration: " ++ perPart)
    | some duration =>
      match chopLead ['+'] effectPart.data with
      | some val =>
        match parse_f64 (trimStr (String.mk val)) with
        | some n => .ok (.addPerUnit n duration)
        | none => .error ("invalid number: " ++ String.mk val)
      | none =>
        match chopLead ['x'] effectPart.data with
        | some val =>
          match parse_f64 (trimStr (String.mk val)) with
          | some n => .ok (.multiplyPerUnit n duration)
          | none => .error ("invalid number: " ++ String.mk val)
        | none => .error ("Effect must start with + or x: " ++ s)
  | none =>
    match chopLead ['+'] s.data with
    | some val =>
      match parse_f64 (trimStr (String.mk val)) with
      | some n => .ok (.add n)
      | none => .error ("invalid number: " ++ String.mk val)
    | none =>
      match chopLead ['x'] s.data with
      | some val =>
        match parse_f64 (trimStr (String.mk val)) with
        | some n => .ok (.multiply n)
        | none => .error ("invalid number: " ++ String.mk val)
      | none => .error ("Effect must start with + or x: " ++ s)

/-- Model of `Effect::apply`: `units` is the number of periods for the
per-unit variants; non-per-unit variants ignore it. -/
def Effect.apply (e : Effect) (score : ℚ) (units : Nat) : ℚ :=
  match e with
  | .add n => score + n
  | .multiply n => score * n
  | .addPerUnit n _ => score + n * (units : ℚ)
  | .multiplyPerUnit n _ => score * n ^ units

/-- Model of `Effect::unit_duration`: the duration of per-unit variants. -/
def Effect.unit_duration (e : Effect) : Option Nat :=
  match e with
  | .addPerUnit _ d => some d
  | .multiplyPerUnit _ d => some d
  | _ => none

/-- Model of `LabelEffect` from `src/scoring/config.rs`. -/
structure LabelEffect where
  name : String
  effect : String
deriving DecidableEq, Repr

/-- Model of `SizeBucket` from `src/scoring/config.rs`. -/
structure SizeBucket where
  range : String
  effect : String
deriving DecidableEq, Repr

/-- Model of `SizeConfig` from `src/scoring/config.rs`. -/
structure SizeConfig where
  exclude : Option (List String)
  buckets : Option (List SizeBucket)
deriving DecidableEq, Repr

/-- Model of `ScoringConfig` from `src/scoring/config.rs` (floats as `ℚ`). -/
structure ScoringConfig where
  base_score : Option ℚ
  age : Option String
  approvals : Option String
  size : Option SizeConfig
  labels : Option (List LabelEffect)
  previously_reviewed : Option String
deriving DecidableEq, Repr

/-- Model of `PullRequest` from `src/github/types.rs`, together with the
`labels`, `user_has_reviewed` and `filtered_size` fields that the rest of the
crate (`engine.rs`, `search.rs`) constructs and reads on this struct.
Timestamps are seconds since the epoch. -/
structure PullRequest where
  title : String
  number : Nat
  author : String
  repo : String
  url : String
  created_at : Int
  updated_at : Int
  additions : Nat
  deletions : Nat
  approvals : Nat
  draft : Bool
  labels : List String
  user_has_reviewed : Bool
  filtered_size : Option Nat
deriving DecidableEq, Repr

/-- Model of `PullRequest::age`, with the wall clock `now` made explicit:
`Utc::now() - self.created_at`, at second granularity. -/
def PullRequest.age (now : Int) (pr : PullRequest) : Int :=
  now - pr.created_at

/-- Model of `PullRequest::size` exactly as written in `src/github/types.rs`:
`self.additions + self.deletions` (it does not consult `filtered_size`). -/
def PullRequest.size (pr : PullRequest) : Nat :=
  pr.additions + pr.deletions

/-- Model of `FactorContribution` from `src/scoring/engine.rs`. -/
structure FactorContribution where
  label : String
  description : String
  before : ℚ
  after : ℚ
deriving DecidableEq, Repr

/-- Model of `ScoreBreakdown` from `src/scoring/engine.rs`. -/
structure ScoreBreakdown where
  base_score : ℚ
  factors : List FactorContribution
deriving DecidableEq, Repr

/-- Model of `ScoreResult` from `src/scoring/engine.rs`. -/
structure ScoreResult where
  score : ℚ
  incomplete : Bool
  breakdown : ScoreBreakdown
deriving DecidableEq, Repr

/-- ASCII lower-casing of one character (Rust `u8::to_ascii_lowercase`). -/
def asciiLower (c : Char) : Char :=
  if 'A' ≤ c && c ≤ 'Z' then Char.ofNat (c.toNat + 32) else c

/-- Model of Rust `str::eq_ignore_ascii_case`. -/
def eq_ignore_ascii_case (a b : String) : Bool :=
  a.data.map asciiLower = b.data.map asciiLower

/-- ASCII lower-casing of a string, modelling Rust `str::to_lowercase` on the
ASCII fragment (label names are compared after this folding). -/
def lowerStr (s : String) : String :=
  String.mk (s.data.map asciiLower)

/-- Rendering of a rational for breakdown descriptions.  The Rust code formats
`f64` values with `{}`/`{:+}`; the numeric rendering of `ℚ` differs textually
but no specified behaviour depends on the digits. -/
def fmtQ (q : ℚ) : String :=
  toString q

/-- Sign-prefixed rendering, modelling the Rust `{:+}` format flag. -/
def fmtSignedQ (q : ℚ) : String :=
  if q < 0 then fmtQ q else "+" ++ fmtQ q

/-- Model of `calculate_units` from `src/scoring/engine.rs`: clamp the age to
non-negative seconds and divide by the effect's unit duration in whole
seconds; non-per-unit effects apply once. -/
def calculate_units (effect : Effect) (age : Int) : Nat :=
  match effect.unit_duration with
  | some unit_duration =>
    let age_secs := (max age 0).toNat
    let unit_secs := durationAsSecs unit_duration
    if unit_secs > 0 then age_secs / unit_secs else 0
  | none => 1

/-- Model of `BucketResult` from `src/scoring/engine.rs`. -/
structure BucketResult where
  score : ℚ
  matched_range : Option String
  matched_effect : Option String
deriving DecidableEq, Repr

/-- Model of `apply_bucket_effect` from `src/scoring/engine.rs`, specialised
to `SizeBucket` (the Rust function is generic in the bucket type via range and
effect accessors): first bucket whose range parses and matches wins, provided
its effect parses; otherwise the scan continues. -/
def apply_bucket_effect (score : ℚ) (value : Nat) : List SizeBucket → BucketResult
  | [] => { score := score, matched_range := none, matched_effect := none }
  | bucket :: rest =>
    match RangeOp.parse bucket.range with
    | .ok range =>
      if range.matches value then
        match Effect.parse bucket.effect with
        | .ok effect =>
          { score := effect.apply score 1
            matched_range := some bucket.range
            matched_effect := some bucket.effect }
        | .error _ => apply_bucket_effect score value rest
      else apply_bucket_effect score value rest
    | .error _ => apply_bucket_effect score value rest

/-- The age factor block of `calculate_score` (lines 32-55 of
`src/scoring/engine.rs`): parse the configured age effect, compute the unit
count from the item's age, apply, and record one contribution. -/
def age_step (now : Int) (pr : PullRequest) (config : ScoringConfig) (score : ℚ) :
    ℚ × List FactorContribution :=
  match config.age with
  | none => (score, [])
  | some age_str =>
    match Effect.parse age_str with
    | .error _ => (score, [])
    | .ok effect =>
      let before := score
      let age := pr.age now
      let units := calculate_units effect age
      let score1 := effect.apply score units
      let description :=
        match effect with
        | .addPerUnit n _ => fmtSignedQ n ++ " per unit (" ++ toString units ++ " units)"
        | .multiplyPerUnit n _ => "x" ++ fmtQ n ++ " per unit (" ++ toString units ++ " units)"
        | .add n => fmtSignedQ n
        | .multiply n => "x" ++ fmtQ n
      (score1, [{ label := "Age", description := description, before := before, after := score1 }])

/-- The `" per N"`-to-`" per 1sec"` substitution performed on approvals effect
strings (lines 62-72 of `src/scoring/engine.rs`): when the right side of
`" per "` is made only of numeric characters and dots, a nominal one-second
duration is substituted so the DSL parser can be reused. -/
def approvals_parseable (approvals_str : String) : String :=
  match splitOnce approvals_str " per " with
  | some (effect_part, per_part) =>
    if (trimStr per_part).data.all (fun c => c.isDigit || c = '.') then
      effect_part ++ " per 1sec"
    else approvals_str
  | none => approvals_str

/-- The approvals factor block of `calculate_score` (lines 57-87 of
`src/scoring/engine.rs`): the approval count itself is the unit count. -/
def approvals_step (pr : PullRequest) (config : ScoringConfig) (score : ℚ) :
    ℚ × List FactorContribution :=
  match config.approvals with
  | none => (score, [])
  | some approvals_str =>
    match Effect.parse (approvals_parseable approvals_str) with
    | .error _ => (score, [])
    | .ok effect =>
      let before := score
      let units := pr.approvals
      let score1 := effect.apply score units
      let description := toString pr.approvals ++ " approvals, effect: " ++ approvals_str
      (score1,
        [{ label := "Approvals", description := description, before := before, after := score1 }])

/-- The size factor block of `calculate_score` (lines 89-108 of
`src/scoring/engine.rs`): first matching bucket wins; a contribution is
recorded only when a bucket matched. -/
def size_step (pr : PullRequest) (config : ScoringConfig) (score : ℚ) :
    ℚ × List FactorContribution :=
  match config.size with
  | none => (score, [])
  | some size_config =>
    match size_config.buckets with
    | none => (score, [])
    | some buckets =>
      let size := pr.size
      let before := score
      let result := apply_bucket_effect score size buckets
      match result.matched_range, result.matched_effect with
      | some range, some effect =>
        let description := toString size ++ " lines, matched '" ++ range ++ "' -> " ++ effect
        (result.score,
          [{ label := "Size", description := description, before := before,
             after := result.score }])
      | _, _ => (result.score, [])

/-- One pass over the configured label rules (lines 110-133 of
`src/scoring/engine.rs`): every rule whose name matches one of the item's
labels case-insensitively, and whose effect parses, is applied in configured
order with a unit count of 1. -/
def labels_go (pr : PullRequest) : List LabelEffect → ℚ → ℚ × List FactorContribution
  | [], score => (score, [])
  | label_config :: rest, score =>
    if pr.labels.any (fun l => eq_ignore_ascii_case l label_config.name) then
      match Effect.parse label_config.effect with
      | .ok effect =>
        let score1 := effect.apply score 1
        let fc : FactorContribution :=
          { label := "Label: " ++ label_config.name
            description := "matched label '" ++ label_config.name ++ "' -> " ++ label_config.effect
            before := score
            after := score1 }
        let r := labels_go pr rest score1
        (r.1, fc :: r.2)
      | .error _ => labels_go pr rest score
    else labels_go pr rest score

/-- The label factor block of `calculate_score`. -/
def labels_step (pr : PullRequest) (config : ScoringConfig) (score : ℚ) :
    ℚ × List FactorContribution :=
  match config.labels with
  | none => (score, [])
  | some label_configs => labels_go pr label_configs score

/-- The previously-reviewed factor block of `calculate_score` (lines 135-149
of `src/scoring/engine.rs`). -/
def reviewed_step (pr : PullRequest) (config : ScoringConfig) (score : ℚ) :
    ℚ × List FactorContribution :=
  match config.previously_reviewed with
  | none => (score, [])
  | some reviewed_effect_str =>
    if pr.user_has_reviewed then
      match Effect.parse reviewed_effect_str with
      | .ok effect =>
        let score1 := effect.apply score 1
        (score1,
          [{ label := "Previously Reviewed"
             description := "You have previously reviewed -> " ++ reviewed_effect_str
             before := score
             after := score1 }])
      | .error _ => (score, [])
    else (score, [])

/-- Model of `calculate_score` from `src/scoring/engine.rs`: the factor blocks
compose in fixed order onto a running score, and the result is floored at
zero. -/
def calculate_score (now : Int) (pr : PullRequest) (config : ScoringConfig) : ScoreResult :=
  let base_score := config.base_score.getD 100
  let a := age_step now pr config base_score
  let b := approvals_step pr config a.1
  let c := size_step pr config b.1
  let d := labels_step pr config c.1
  let e := reviewed_step pr config d.1
  { score := max e.1 0
    incomplete := false
    breakdown :=
      { base_score := base_score
        factors := a.2 ++ b.2 ++ c.2 ++ d.2 ++ e.2 } }

/-- Model of `merge_size_configs` from `src/scoring/config.rs`: leaf-level
presence merge of `exclude` and `buckets`. -/
def merge_size_configs (global query : Option SizeConfig) : Option SizeConfig :=
  match query, global with
  | some q, some g =>
    some { exclude := q.exclude.or g.exclude, buckets := q.buckets.or g.buckets }
  | some q, none => some q
  | none, g => g

/-- Insert-or-replace into an association list keyed by folded label name;
used to model the `HashMap` in `merge_label_configs`.  Replacement keeps the
entry's position, a new key is appended. -/
def upsertLabel (k : String) (v : LabelEffect) :
    List (String × LabelEffect) → List (String × LabelEffect)
  | [] => [(k, v)]
  | (k', v') :: rest => if k' = k then (k, v) :: rest else (k', v') :: upsertLabel k v rest

/-- Model of `merge_label_configs` from `src/scoring/config.rs`: global rules
first, query rules override on a case-insensitively equal name.  The Rust
`HashMap::into_values` iteration order is unspecified; this model fixes
first-insertion order, on which no specified behaviour depends. -/
def merge_label_configs (global query : Option (List LabelEffect)) :
    Option (List LabelEffect) :=
  match query, global with
  | none, g => g
  | some q, none => some q
  | some q, some g =>
    some ((((g ++ q).foldl (fun m lab => upsertLabel (lowerStr lab.name) lab m) []).map
      (fun e => e.2)))

/-- Model of `merge_scoring_configs` from `src/scoring/config.rs`: per-query
present fields override, absent fields fall through to global. -/
def merge_scoring_configs (global : ScoringConfig) (query : Option ScoringConfig) :
    ScoringConfig :=
  match query with
  | none => global
  | some q =>
    { base_score := q.base_score.or global.base_score
      age := q.age.or global.age
      approvals := q.approvals.or global.approvals
      size := merge_size_configs global.size q.size
      labels := merge_label_configs global.labels q.labels
      previously_reviewed := q.previously_reviewed.or global.previously_reviewed }

/-- Model of `do_ranges_overlap` from `src/scoring/validation.rs`, arm by arm.
The `LessThan`/`GreaterThan` arm computes `min + 1` in `u64`; the wrap-around
of release-mode Rust is written explicitly. -/
def do_ranges_overlap : RangeOp → RangeOp → Bool
  | .equal a, .equal b => a = b
  | .equal n, .between low high | .between low high, .equal n => n ≥ low && n ≤ high
  | .equal n, .lessThan max | .lessThan max, .equal n => n < max
  | .equal n, .lessEqual max | .lessEqual max, .equal n => n ≤ max
  | .equal n, .greaterThan min | .greaterThan min, .equal n => n > min
  | .equal n, .greaterEqual min | .greaterEqual min, .equal n => n ≥ min
  | .between l1 h1, .between l2 h2 => (l1 ≥ l2 && l1 ≤ h2) || (l2 ≥ l1 && l2 ≤ h1)
  | .lessThan _, .lessThan _ | .lessEqual _, .lessEqual _ => true
  | .lessThan _, .lessEqual _ | .lessEqual _, .lessThan _ => true
  | .greaterThan _, .greaterThan _ | .greaterEqual _, .greaterEqual _ => true
  | .greaterThan _, .greaterEqual _ | .greaterEqual _, .greaterThan _ => true
  | .lessThan max, .between low _ | .between low _, .lessThan max => low < max
  | .lessEqual max, .between low _ | .between low _, .lessEqual max => low ≤ max
  | .greaterThan min, .between _ high | .between _ high, .greaterThan min => high > min
  | .greaterEqual min, .between _ high | .between _ high, .greaterEqual min => high ≥ min
  | .lessThan max, .greaterThan min | .greaterThan min, .lessThan max =>
    max > (min + 1) % 2 ^ 64
  | .lessThan max, .greaterEqual min | .greaterEqual min, .lessThan max => max > min
  | .lessEqual max, .greaterThan min | .greaterThan min, .lessEqual max => max > min
  | .lessEqual max, .greaterEqual min | .greaterEqual min, .lessEqual max => max ≥ min

/-- A default bucket used for (never-taken) out-of-bounds list indexing in the
index-based overlap scan. -/
def dfltBucket : SizeBucket :=
  { range := "", effect := "" }

/-- One `(i, j)` probe of `check_bucket_overlaps`: parse both ranges (a parse
failure is reported with its bucket index) and test them for overlap. -/
def checkPair (buckets : List SizeBucket) (ij : Nat × Nat) : Except String Unit :=
  match RangeOp.parse (buckets.getD ij.1 dfltBucket).range with
  | .error e => .error ("bucket[" ++ toString ij.1 ++ "]: " ++ e)
  | .ok r1 =>
    match RangeOp.parse (buckets.getD ij.2 dfltBucket).range with
    | .error e => .error ("bucket[" ++ toString ij.2 ++ "]: " ++ e)
    | .ok r2 =>
      if do_ranges_overlap r1 r2 then
        .error ("scoring.size.buckets: overlapping ranges at buckets[" ++ toString ij.1 ++
          "] ('" ++ (buckets.getD ij.1 dfltBucket).range ++ "') and buckets[" ++
          toString ij.2 ++ "] ('" ++ (buckets.getD ij.2 dfltBucket).range ++ "')")
      else .ok ()

/-- The index pairs `(i, j)` with `i < j < n`, visited in the order of the
nested `for` loops of `check_bucket_overlaps`. -/
def overlapPairs (n : Nat) : List (Nat × Nat) :=
  (List.range n).flatMap (fun i => ((List.range n).filter (fun j => i < j)).map (fun j => (i, j)))

/-- The first error of a scan, modelling a loop with an early `return Err`. -/
def firstErr {α : Type} (f : α → Except String Unit) : List α → Except String Unit
  | [] => .ok ()
  | x :: xs =>
    match f x with
    | .error e => .error e
    | .ok () => firstErr f xs

/-- Model of `check_bucket_overlaps` from `src/scoring/validation.rs`. -/
def check_bucket_overlaps (buckets : List SizeBucket) : Except String Unit :=
  firstErr (checkPair buckets) (overlapPairs buckets.length)

/-- JSON whitespace (the four characters `serde_json` skips). -/
def isJsonWs (c : Char) : Bool :=
  c = ' ' || c = '\t' || c = '\n' || c = '\r'

/-- Skip JSON whitespace. -/
def skipJsonWs : List Char → List Char
  | [] => []
  | c :: cs => if isJsonWs c then skipJsonWs cs else c :: cs

/-- The opening brace character, `U+007B`. -/
def obraceChar : Char :=
  Char.ofNat 123

/-- The closing brace character, `U+007D`. -/
def cbraceChar : Char :=
  Char.ofNat 125

/-- Hexadecimal digit test for `\u` escapes. -/
def isHexDigitChar (c : Char) : Bool :=
  c.isDigit || ('a' ≤ c && c ≤ 'f') || ('A' ≤ c && c ≤ 'F')

/-- Consume the remainder of a JSON string (the opening quote already
consumed): ordinary characters above `U+001F`, simple escapes, and
`\uXXXX`. -/
def jsonStringRest : Nat → List Char → Option (List Char)
  | 0, _ => none
  | fuel + 1, cs =>
    match cs with
    | [] => none
    | c :: rest =>
      if c = '"' then some rest
      else if c = '\\' then
        match rest with
        | [] => none
        | e :: rest2 =>
          if e = '"' || e = '\\' || e = '/' || e = 'b' || e = 'f' ||
              e = 'n' || e = 'r' || e = 't' then
            jsonStringRest fuel rest2
          else if e = 'u' then
            match rest2 with
            | h1 :: h2 :: h3 :: h4 :: rest3 =>
              if isHexDigitChar h1 && isHexDigitChar h2 && isHexDigitChar h3 &&
                  isHexDigitChar h4 then
                jsonStringRest fuel rest3
              else none
            | _ => none
          else none
      else if c.toNat < 32 then none
      else jsonStringRest fuel rest

/-- Consume the fraction and exponent parts of a JSON number, if present. -/
def jsonFracExp (cs : List Char) : Option (List Char) :=
  let afterFrac : Option (List Char) :=
    match cs with
    | '.' :: rest =>
      if (rest.takeWhile (fun d => d.isDigit)).isEmpty then none
      else some (rest.dropWhile (fun d => d.isDigit))
    | other => some other
  match afterFrac with
  | none => none
  | some cs1 =>
    match cs1 with
    | [] => some []
    | e :: rest =>
      if e = 'e' || e = 'E' then
        let rest2 := if rest.take 1 = ['+'] || rest.take 1 = ['-'] then rest.drop 1 else rest
        if (rest2.takeWhile (fun d => d.isDigit)).isEmpty then none
        else some (rest2.dropWhile (fun d => d.isDigit))
      else some (e :: rest)

/-- Consume a JSON number: optional minus, integer part without leading
zeros, optional fraction and exponent. -/
def jsonNumberRest (cs : List Char) : Option (List Char) :=
  let afterSign := if cs.take 1 = ['-'] then cs.drop 1 else cs
  match afterSign with
  | [] => none
  | c :: rest =>
    if c = '0' then jsonFracExp rest
    else if c.isDigit then jsonFracExp (rest.dropWhile (fun d => d.isDigit))
    else none

mutual

/-- Consume one JSON value.  Fuel decreases on every call; the top-level
entry point supplies more fuel than any input can use. -/
def jsonValue : Nat → List Char → Option (List Char)
  | 0, _ => none
  | fuel + 1, cs =>
    match cs with
    | [] => none
    | c :: rest =>
      if c = 'n' then chopLead ['u', 'l', 'l'] rest
      else if c = 't' then chopLead ['r', 'u', 'e'] rest
      else if c = 'f' then chopLead ['a', 'l', 's', 'e'] rest
      else if c = '"' then jsonStringRest (fuel + 1) rest
      else if c = '[' then jsonArrayBody fuel (skipJsonWs rest)
      else if c = obraceChar then jsonObjectBody fuel (skipJsonWs rest)
      else if c = '-' || c.isDigit then jsonNumberRest (c :: rest)
      else none

/-- Consume an array body after the opening bracket. -/
def jsonArrayBody : Nat → List Char → Option (List Char)
  | 0, _ => none
  | fuel + 1, cs =>
    match cs with
    | [] => none
    | c :: rest =>
      if c = ']' then some rest
      else
        match jsonValue fuel (c :: rest) with
        | none => none
        | some cs1 => jsonArrayItems fuel (skipJsonWs cs1)

/-- Consume the `, value` continuation of an array. -/
def jsonArrayItems : Nat → List Char → Option (List Char)
  | 0, _ => none
  | fuel + 1, cs =>
    match cs with
    | [] => none
    | c :: rest =>
      if c = ']' then some rest
      else if c = ',' then
        match jsonValue fuel (skipJsonWs rest) with
        | none => none
        | some cs1 => jsonArrayItems fuel (skipJsonWs cs1)
      else none

/-- Consume an object body after the opening brace. -/
def jsonObjectBody : Nat → List Char → Option (List Char)
  | 0, _ => none
  | fuel + 1, cs =>
    match cs with
    | [] => none
    | c :: rest =>
      if c = cbraceChar then some rest
      else jsonMember fuel (c :: rest)

/-- Consume one `"key" : value` member followed by the object
continuation. -/
def jsonMember : Nat → List Char → Option (List Char)
  | 0, _ => none
  | fuel + 1, cs =>
    match cs with
    | [] => none
    | c :: rest =>
      if c = '"' then
        match jsonStringRest (fuel + 1) rest with
        | none => none
        | some cs1 =>
          match skipJsonWs cs1 with
          | ':' :: cs2 =>
            match jsonValue fuel (skipJsonWs cs2) with
            | none => none
            | some cs3 => jsonObjectItems fuel (skipJsonWs cs3)
          | _ => none
      else none

/-- Consume the `, "key" : value` continuation of an object. -/
def jsonObjectItems : Nat → List Char → Option (List Char)
  | 0, _ => none
  | fuel + 1, cs =>
    match cs with
    | [] => none
    | c :: rest =>
      if c = cbraceChar then some rest
      else if c = ',' then jsonMember fuel (skipJsonWs rest)
      else none

end

/-- Model of `serde_json::from_slice::<serde_json::Value>(..).is_ok()` on a
UTF-8 body: the input is exactly one JSON value surrounded by optional
whitespace.  (`serde_json`'s 128-deep recursion limit is not modelled; no
specified behaviour depends on it.) -/
def json_valid (body : String) : Bool :=
  match jsonValue (4 * body.data.length + 4) (skipJsonWs body.data) with
  | none => false
  | some rest => (skipJsonWs rest).isEmpty

/-- Model of octocrab's `CacheKey`: an ETag or a Last-Modified validator. -/
inductive CacheKey where
  | etag (value : String)
  | lastModified (value : String)
deriving DecidableEq, Repr

/-- Model of octocrab's `CachedResponse`: stored headers and body (the body
modelled as UTF-8 text). -/
structure CachedResponse where
  headers : List (String × String)
  body : String
deriving DecidableEq, Repr

/-- Model of `DiskCacheEntry` from `src/github/cache.rs`: the serialisable
form of a cache entry. -/
structure DiskCacheEntry where
  etag : Option String
  last_modified : Option String
  headers : List (String × String)
  body : String
deriving DecidableEq, Repr

/-- Model of `DiskCacheEntry::from_parts`. -/
def DiskCacheEntry.from_parts (key : CacheKey) (response : CachedResponse) : DiskCacheEntry :=
  match key with
  | .etag e => { etag := some e, last_modified := none, headers := response.headers,
                 body := response.body }
  | .lastModified lm => { etag := none, last_modified := some lm, headers := response.headers,
                          body := response.body }

/-- Model of `DiskCacheEntry::to_parts`.  Header re-parsing always succeeds in
this model (headers are kept as parsed pairs). -/
def DiskCacheEntry.to_parts (entry : DiskCacheEntry) : Except String (CacheKey × CachedResponse) :=
  match entry.etag with
  | some e => .ok (.etag e, { headers := entry.headers, body := entry.body })
  | none =>
    match entry.last_modified with
    | some lm => .ok (.lastModified lm, { headers := entry.headers, body := entry.body })
    | none => .error "Invalid cache entry: no ETag or Last-Modified"

/-- State of a `DiskCache`: the two in-memory maps of `CacheData` plus the
durable `cacache` store, all keyed by the URI string. -/
structure CacheState where
  keys : String → Option CacheKey
  responses : String → Option CachedResponse
  disk : String → Option DiskCacheEntry

/-- Insert into a string-keyed map. -/
def insertFn {α : Type} (m : String → Option α) (k : String) (v : α) : String → Option α :=
  fun k' => if k' = k then some v else m k'

/-- Model of `DiskCache::load_from_disk`: read and decode the durable entry;
on success populate both in-memory maps and return the validator. -/
def load_from_disk (c : CacheState) (uri_key : String) : Option CacheKey × CacheState :=
  match c.disk uri_key with
  | none => (none, c)
  | some entry =>
    match entry.to_parts with
    | .error _ => (none, c)
    | .ok (key, response) =>
      (some key,
        { c with
          keys := insertFn c.keys uri_key key
          responses := insertFn c.responses uri_key response })

/-- Model of `CacheStorage::try_hit` for `DiskCache`: in-memory lookup first,
then a lazy disk load (which hydrates the in-memory maps). -/
def try_hit (c : CacheState) (uri : String) : Option CacheKey × CacheState :=
  match c.keys uri with
  | some cache_key => (some cache_key, c)
  | none => load_from_disk c uri

/-- Model of `CacheStorage::load` for `DiskCache`: in-memory lookup only. -/
def load (c : CacheState) (uri : String) : Option CachedResponse :=
  c.responses uri

/-- Model of `Drop for DiskCacheWriter` with the accumulated body made
explicit: unless the body is well-formed JSON nothing is persisted; otherwise
the entry is written to both in-memory maps and (best-effort) to the durable
store. -/
def writer_drop (c : CacheState) (uri_key : String) (key : CacheKey)
    (headers : List (String × String)) (body : String) : CacheState :=
  if json_valid body then
    let response : CachedResponse := { headers := headers, body := body }
    { keys := insertFn c.keys uri_key key
      responses := insertFn c.responses uri_key response
      disk := insertFn c.disk uri_key (DiskCacheEntry.from_parts key response) }
  else c

/-- Typed error carried by a query result, modelling the `AuthError` downcast
of `src/fetch.rs`: `auth` is the `AuthError` type, `other` is any other
`anyhow` error. -/
inductive QueryError where
  | auth (message : String)
  | other (message : String)
deriving DecidableEq, Repr

/-- One completed query of the fetch orchestrator: its index in the
configured query list and its result. -/
structure QueryOutcome where
  query_index : Nat
  result : Except QueryError (List PullRequest)

/-- The result-collection loop of `fetch_and_score_prs` (lines 83-116 of
`src/fetch.rs`), folded over the per-query results in completion order:
successes are accumulated tagged with their query index, an Auth error aborts
immediately, other errors are skipped. -/
def collectAux : List QueryOutcome → List (PullRequest × Nat) → Bool →
    Except QueryError (List (PullRequest × Nat) × Bool)
  | [], acc, any_succeeded => .ok (acc, any_succeeded)
  | outcome :: rest, acc, any_succeeded =>
    match outcome.result with
    | .ok prs => collectAux rest (acc ++ prs.map (fun pr => (pr, outcome.query_index))) true
    | .error e =>
      match e with
      | .auth m => .error (.auth m)
      | .other _ => collectAux rest acc any_succeeded

/-- The error-policy phase of `fetch_and_score_prs`: run the collection loop;
afterwards, if nothing succeeded and the query list (one outcome per
configured query) was non-empty, fail with the aggregate error. -/
def collect_query_results (results : List QueryOutcome) :
    Except QueryError (List (PullRequest × Nat)) :=
  match collectAux results [] false with
  | .error e => .error e
  | .ok (all_prs, any_succeeded) =>
    if !any_succeeded && !results.isEmpty then
      .error (.other "All queries failed. Check your network connection and GitHub token.")
    else .ok all_prs

/-- The URL-deduplication fold of `fetch_and_score_prs` (lines 118-132 of
`src/fetch.rs`), with the seen-URL set made explicit: the first occurrence of
a URL survives and its query index is recorded. -/
def dedup_prs_aux (seen : List String) :
    List (PullRequest × Nat) → List PullRequest × List (String × Nat)
  | [] => ([], [])
  | (pr, query_idx) :: rest =>
    if seen.contains pr.url then dedup_prs_aux seen rest
    else
      let r := dedup_prs_aux (pr.url :: seen) rest
      (pr :: r.1, (pr.url, query_idx) :: r.2)

/-- Model of the deduplication of `fetch_and_score_prs`: returns the unique
item list and the URL-to-query-index map (as an association list). -/
def dedup_prs (all_prs : List (PullRequest × Nat)) :
    List PullRequest × List (String × Nat) :=
  dedup_prs_aux [] all_prs

/-- A raw search hit, modelling the fields of the octocrab issue object that
`search_prs` reads: `html_url_path` is `issue.html_url.path()` and
`is_pull_request` is `issue.pull_request.is_some()`. -/
structure SearchIssue where
  title : String
  number : Nat
  user_login : String
  html_url_path : String
  html_url : String
  created_at : Int
  updated_at : Int
  labels : List String
  is_pull_request : Bool

/-- The owning-repository extraction of `search_prs` (lines 26-34 of
`src/github/search.rs`): the first two non-empty path segments, or the
`"unknown/unknown"` placeholder. -/
def repo_from_path (path : String) : String :=
  let parts := (splitAllChar '/' path.data).filter (fun s => !s.isEmpty)
  match parts with
  | p0 :: p1 :: _ => String.mk p0 ++ "/" ++ String.mk p1
  | _ => "unknown/unknown"

/-- The item constructor of `search_prs` (lines 36-51 of
`src/github/search.rs`): enrichment fields are zeroed. -/
def issue_to_pr (issue : SearchIssue) : PullRequest :=
  { title := issue.title
    number := issue.number
    author := issue.user_login
    repo := repo_from_path issue.html_url_path
    url := issue.html_url
    created_at := issue.created_at
    updated_at := issue.updated_at
    additions := 0
    deletions := 0
    approvals := 0
    draft := false
    labels := issue.labels
    user_has_reviewed := false
    filtered_size := none }

/-- The successful-response arm of `search_prs`: keep only hits that are pull
requests and construct an item from each. -/
def search_hits_to_prs (items : List SearchIssue) : List PullRequest :=
  (items.filter (fun issue => issue.is_pull_request)).map issue_to_pr

/-- A per-query scoring config with every field absent. -/
def allAbsentQuery : ScoringConfig :=
  { base_score := none, age := none, approvals := none, size := none, labels := none,
    previously_reviewed := none }

/-- An empty cache: both in-memory maps and the durable store hold nothing. -/
def emptyCache : CacheState :=
  { keys := fun _ => none, responses := fun _ => none, disk := fun _ => none }

/-- A concrete search hit whose URL path has fewer than two non-empty
segments. -/
def c10Issue : SearchIssue :=
  { title := "t", number := 1, user_login := "u", html_url_path := "/pulls",
    html_url := "https://api.example.test/pulls", created_at := 0, updated_at := 0,
    labels := [], is_pull_request := true }

/-- Substring test, used to state that an error message cites a range
string. -/
def strContains (s pat : String) : Bool :=
  (splitOnceChars pat.data s.data).isSome

/-- A concrete pull request used as a duplicated search result. -/
def c5pr : PullRequest :=
  { title := "dup", number := 7, author := "a", repo := "o/r",
    url := "https://github.com/o/r/pull/7", created_at := 0, updated_at := 0,
    additions := 1, deletions := 1, approvals := 0, draft := false, labels := [],
    user_has_reviewed := false, filtered_size := none }

/-- The same pull request reported by query 0 and query 1. -/
def c5list : List (PullRequest × Nat) :=
  [(c5pr, 0), (c5pr, 1)]

/-- Per-query outcomes where query 1 carries an Auth error. -/
def c6authList : List QueryOutcome :=
  [{ query_index := 0, result := .ok [c5pr] },
   { query_index := 1, result := .error (.auth "Authentication failed.") },
   { query_index := 2, result := .error (.other "timeout") }]

/-- Per-query outcomes with one non-Auth failure and one success. -/
def c6okList : List QueryOutcome :=
  [{ query_index := 0, result := .error (.other "timeout") },
   { query_index := 1, result := .ok [c5pr] }]

/-- The two overlapping buckets of the C7 scenario. -/
def c7buckets : List SizeBucket :=
  [{ range := "<=100", effect := "x5" }, { range := ">=100", effect := "x1" }]

/-- Two buckets whose ranges are both the unsatisfiable `"<0"`. -/
def c7emptyBuckets : List SizeBucket :=
  [{ range := "<0", effect := "x1" }, { range := "<0", effect := "x2" }]

/-- The item of the `test_size_uses_filtered_size` unit test of
`src/scoring/engine.rs`: aggregate size 1000, filtered size 50. -/
def c8pr : PullRequest :=
  { title := "Test PR", number := 1, author := "user", repo := "owner/repo",
    url := "https://github.com/owner/repo/pull/1", created_at := 0, updated_at := 0,
    additions := 500, deletions := 500, approvals := 0, draft := false, labels := [],
    user_has_reviewed := false, filtered_size := some 50 }

/-- The bucket list of that unit test: `<100 -> x5` and `>=100 -> x1`. -/
def c8buckets : List SizeBucket :=
  [{ range := "<100", effect := "x5" }, { range := ">=100", effect := "x1" }]

/-- The scoring config of that unit test. -/
def c8cfg : ScoringConfig :=
  { base_score := some 100, age := none, approvals := none,
    size := some { exclude := none, buckets := some c8buckets },
    labels := none, previously_reviewed := none }

/-- An item with exactly one approval. -/
def c9pr : PullRequest :=
  { title := "t", number := 2, author := "a", repo := "o/r",
    url := "https://github.com/o/r/pull/2", created_at := 0, updated_at := 0,
    additions := 0, deletions := 0, approvals := 1, draft := false, labels := [],
    user_has_reviewed := false, filtered_size := none }

/-- A scoring config whose only factor is the approvals effect
`"+10 per 2"` (a bare per-number with no time unit). -/
def c9cfg : ScoringConfig :=
  { base_score := none, age := none, approvals := some "+10 per 2", size := none,
    labels := none, previously_reviewed := none }

end PrBro

namespace PrBro

/-- C1: for every item and every scoring config (and any wall-clock time),
the score in the `ScoreResult` returned by `calculate_score` is never
negative: the final running score is floored at zero. -/
theorem claim_C1 (now : Int) (pr : PullRequest) (config : ScoringConfig) :
    0 ≤ (calculate_score now pr config).score := by
  unfold calculate_score
  exact le_max_right _ _

/-- C2: `Effect::apply` adds `n` once for `Add`, multiplies by `n` once for
`Multiply` (both regardless of the unit count), adds `n * u` for
`AddPerUnit`, and multiplies by `n ^ u` for `MultiplyPerUnit`. -/
theorem claim_C2 (s n : ℚ) (u d d' : Nat) :
    (Effect.add n).apply s u = s + n ∧
    (Effect.multiply n).apply s u = s * n ∧
    (Effect.addPerUnit n d).apply s u = s + n * (u : ℚ) ∧
    (Effect.multiplyPerUnit n d').apply s u = s * n ^ u :=
  ⟨rfl, rfl, rfl, rfl⟩

/-- C3: merging a global scoring config with no per-query config returns the
global config, and merging with a per-query config whose every field is
absent also returns exactly the global config. -/
theorem claim_C3 (global : ScoringConfig) :
    merge_scoring_configs global none = global ∧
    merge_scoring_configs global (some allAbsentQuery) = global :=
  ⟨rfl, rfl⟩

/-- C4: if the written body is not well-formed JSON and the cache held no
prior entry for the URL, completing (dropping) the cache writer persists
nothing — the state is unchanged — and both the validator lookup `try_hit`
and the response lookup `load` for that URL miss. -/
theorem claim_C4 (c : CacheState) (url : String) (key : CacheKey)
    (headers : List (String × String)) (body : String)
    (hbody : json_valid body = false)
    (hkeys : c.keys url = none) (hresp : c.responses url = none)
    (hdisk : c.disk url = none) :
    writer_drop c url key headers body = c ∧
    (try_hit (writer_drop c url key headers body) url).1 = none ∧
    load (writer_drop c url key headers body) url = none := by
  have hdrop : writer_drop c url key headers body = c := by
    simp [writer_drop, hbody]
  refine ⟨hdrop, ?_, ?_⟩
  · rw [hdrop]
    simp [try_hit, hkeys, load_from_disk, hdisk]
  · rw [hdrop]
    simpa [load] using hresp

/-- C4 witness: dropping a writer holding the truncated body `"[1, 2"` on an
empty cache persists nothing and both lookups miss. -/
theorem claim_C4_witness :
    writer_drop emptyCache "https://api.example.test/x" (.etag "W") [] "[1, 2" = emptyCache ∧
    (try_hit (writer_drop emptyCache "https://api.example.test/x" (.etag "W") [] "[1, 2")
      "https://api.example.test/x").1 = none ∧
    load (writer_drop emptyCache "https://api.example.test/x" (.etag "W") [] "[1, 2")
      "https://api.example.test/x" = none :=
  claim_C4 emptyCache "https://api.example.test/x" (.etag "W") [] "[1, 2"
    (by decide) rfl rfl rfl

/-- C10: a raw search hit that is a pull request but whose URL path has fewer
than two non-empty segments is still constructed into an item (not dropped),
with its owning-repository identifier set to `"unknown/unknown"`. -/
theorem claim_C10 (items : List SearchIssue) (issue : SearchIssue)
    (hmem : issue ∈ items) (hpr : issue.is_pull_request = true)
    (hseg : ((splitAllChar '/' issue.html_url_path.data).filter
      (fun s => !s.isEmpty)).length < 2) :
    issue_to_pr issue ∈ search_hits_to_prs items ∧
    (issue_to_pr issue).repo = "unknown/unknown" := by
  constructor
  · exact List.mem_map_of_mem _ (List.mem_filter.2 ⟨hmem, by simp [hpr]⟩)
  · show repo_from_path issue.html_url_path = "unknown/unknown"
    unfold repo_from_path
    rcases hl : (splitAllChar '/' issue.html_url_path.data).filter (fun s => !s.isEmpty) with
      _ | ⟨p0, rest⟩
    · simp [hl]
    · rcases rest with _ | ⟨p1, t⟩
      · simp [hl]
      · rw [hl] at hseg
        simp only [List.length_cons] at hseg
        exact absurd hseg (by omega)

/-- C10 witness: the concrete hit with path `"/pulls"` is constructed and
carries the `"unknown/unknown"` repository. -/
theorem claim_C10_witness :
    issue_to_pr c10Issue ∈ search_hits_to_prs [c10Issue] ∧
    (issue_to_pr c10Issue).repo = "unknown/unknown" :=
  claim_C10 [c10Issue] c10Issue (List.mem_singleton.2 rfl) rfl (by decide)

/-- Once a URL is in the seen set, the deduplication fold emits no item and
no index entry for it. -/
theorem dedup_aux_seen :
    ∀ (l : List (PullRequest × Nat)) (seen : List String) (url : String),
      url ∈ seen →
      (dedup_prs_aux seen l).1.countP (fun p => p.url == url) = 0 ∧
      (dedup_prs_aux seen l).1.find? (fun p => p.url == url) = none ∧
      List.lookup url (dedup_prs_aux seen l).2 = none := by
  intro l
  induction l with
  | nil =>
    intro seen url h
    simp [dedup_prs_aux]
  | cons hd tl ih =>
    intro seen url h
    obtain ⟨pr, qi⟩ := hd
    by_cases hc : pr.url ∈ seen
    · simpa [dedup_prs_aux, hc] using ih seen url h
    · have hne : ¬(pr.url = url) := by
        intro he
        rw [he] at hc
        exact hc h
      have h' : url ∈ pr.url :: seen := List.mem_cons_of_mem _ h
      obtain ⟨ihc, ihf, ihl⟩ := ih (pr.url :: seen) url h'
      have hne' : ¬(url = pr.url) := fun he => hne he.symm
      have hb : (pr.url == url) = false := beq_eq_false_iff_ne.mpr hne
      have hb' : (url == pr.url) = false := beq_eq_false_iff_ne.mpr hne'
      refine ⟨?_, ?_, ?_⟩
      · simpa [dedup_prs_aux, hc, List.countP_cons, hne] using ihc
      · simpa [dedup_prs_aux, hc, List.find?_cons, hne] using ihf
      · simpa [dedup_prs_aux, hc, List.lookup, hb'] using ihl

/-- While a URL is not yet seen, the deduplication fold keeps exactly its
first occurrence and records that occurrence's query index. -/
theorem dedup_aux_not_seen :
    ∀ (l : List (PullRequest × Nat)) (seen : List String) (url : String),
      url ∉ seen →
      (dedup_prs_aux seen l).1.countP (fun p => p.url == url) =
        (if l.any (fun p => p.1.url == url) then 1 else 0) ∧
      (dedup_prs_aux seen l).1.find? (fun p => p.url == url) =
        (l.find? (fun p => p.1.url == url)).map Prod.fst ∧
      List.lookup url (dedup_prs_aux seen l).2 =
        (l.find? (fun p => p.1.url == url)).map Prod.snd := by
  intro l
  induction l with
  | nil =>
    intro seen url h
    simp [dedup_prs_aux]
  | cons hd tl ih =>
    intro seen url h
    obtain ⟨pr, qi⟩ := hd
    by_cases hc : pr.url ∈ seen
    · have hne : ¬(pr.url = url) := by
        intro he
        rw [he] at hc
        exact h hc
      obtain ⟨ihc, ihf, ihl⟩ := ih seen url h
      have hb : (pr.url == url) = false := beq_eq_false_iff_ne.mpr hne
      have hstep : dedup_prs_aux seen ((pr, qi) :: tl) = dedup_prs_aux seen tl := by
        simp [dedup_prs_aux, hc]
      have hany : (((pr, qi) :: tl).any fun p => p.1.url == url) =
          (tl.any fun p => p.1.url == url) := by
        simp [hb]
      have hfind : (((pr, qi) :: tl).find? fun p => p.1.url == url) =
          (tl.find? fun p => p.1.url == url) := by
        simp [List.find?_cons, hb]
      refine ⟨?_, ?_, ?_⟩
      · rw [hstep, hany]
        exact ihc
      · rw [hstep, hfind]
        exact ihf
      · rw [hstep, hfind]
        exact ihl
    · by_cases hu : pr.url = url
      · subst hu
        obtain ⟨sc, sf, sl⟩ :=
          dedup_aux_seen tl (pr.url :: seen) pr.url (List.mem_cons_self _ _)
        refine ⟨?_, ?_, ?_⟩
        · simpa [dedup_prs_aux, hc, List.countP_cons] using sc
        · simp [dedup_prs_aux, hc, List.find?_cons]
        · simp [dedup_prs_aux, hc, List.lookup]
      · have h' : url ∉ pr.url :: seen := by
          intro hmem
          rcases List.mem_cons.1 hmem with he | hmem'
          · exact hu he.symm
          · exact h hmem'
        obtain ⟨ihc, ihf, ihl⟩ := ih (pr.url :: seen) url h'
        have hne' : ¬(url = pr.url) := fun he => hu he.symm
        have hb : (pr.url == url) = false := beq_eq_false_iff_ne.mpr hu
        have hb' : (url == pr.url) = false := beq_eq_false_iff_ne.mpr hne'
        have hany : (((pr, qi) :: tl).any fun p => p.1.url == url) =
            (tl.any fun p => p.1.url == url) := by
          simp [hb]
        have hfind : (((pr, qi) :: tl).find? fun p => p.1.url == url) =
            (tl.find? fun p => p.1.url == url) := by
          simp [List.find?_cons, hb]
        refine ⟨?_, ?_, ?_⟩
        · rw [hany]
          simpa [dedup_prs_aux, hc, List.countP_cons, hb] using ihc
        · rw [hfind]
          simpa [dedup_prs_aux, hc, List.find?_cons, hb] using ihf
        · rw [hfind]
          simpa [dedup_prs_aux, hc, List.lookup, hb'] using ihl

/-- C5: an item whose URL appears in the raw results of two different queries
appears exactly once in the deduplicated list; the surviving item is the
first occurrence, and the recorded query index is that of the first query
that produced it. -/
theorem claim_C5 (all_prs : List (PullRequest × Nat)) (url : String)
    (e1 e2 : PullRequest × Nat)
    (h1 : e1 ∈ all_prs) (h2 : e2 ∈ all_prs)
    (hu1 : e1.1.url = url) (hu2 : e2.1.url = url) (hq : e1.2 ≠ e2.2) :
    (dedup_prs all_prs).1.countP (fun p => p.url == url) = 1 ∧
    (dedup_prs all_prs).1.find? (fun p => p.url == url) =
      (all_prs.find? (fun p => p.1.url == url)).map Prod.fst ∧
    List.lookup url (dedup_prs all_prs).2 =
      (all_prs.find? (fun p => p.1.url == url)).map Prod.snd := by
  obtain ⟨hcount, hfind, hlookup⟩ :=
    dedup_aux_not_seen all_prs [] url (List.not_mem_nil url)
  have hany : all_prs.any (fun p => p.1.url == url) = true := by
    refine List.any_eq_true.2 ⟨e1, h1, ?_⟩
    simp [hu1]
  rw [hany] at hcount
  exact ⟨by simpa using hcount, hfind, hlookup⟩

/-- C5 witness: a pull request returned by query 0 and query 1 survives once,
as its first occurrence, attributed to query 0. -/
theorem claim_C5_witness :
    (dedup_prs c5list).1.countP (fun p => p.url == "https://github.com/o/r/pull/7") = 1 ∧
    (dedup_prs c5list).1.find? (fun p => p.url == "https://github.com/o/r/pull/7") =
      (c5list.find? (fun p => p.1.url == "https://github.com/o/r/pull/7")).map Prod.fst ∧
    List.lookup "https://github.com/o/r/pull/7" (dedup_prs c5list).2 =
      (c5list.find? (fun p => p.1.url == "https://github.com/o/r/pull/7")).map Prod.snd :=
  claim_C5 c5list "https://github.com/o/r/pull/7" (c5pr, 0) (c5pr, 1)
    (by simp [c5list]) (by simp [c5list]) rfl rfl (by decide)

/-- If some outcome carries an Auth error, the collection loop returns an
Auth error that one of the outcomes carried, whatever the accumulator and
success flag. -/
theorem collect_aux_auth :
    ∀ (results : List QueryOutcome) (acc : List (PullRequest × Nat)) (b : Bool),
      (∃ o ∈ results, ∃ m, o.result = .error (.auth m)) →
      ∃ m, collectAux results acc b = .error (.auth m) ∧
        ∃ o ∈ results, o.result = .error (.auth m) := by
  intro results
  induction results with
  | nil =>
    rintro acc b ⟨o, ho, -⟩
    cases ho
  | cons hd tl ih =>
    rintro acc b ⟨o, ho, m, hm⟩
    rcases hr : hd.result with e | prs
    · rcases e with m' | m'
      · exact ⟨m', by simp [collectAux, hr], hd, List.mem_cons_self _ _, hr⟩
      · have htl : ∃ o ∈ tl, ∃ m, o.result = .error (.auth m) := by
          rcases List.mem_cons.1 ho with he | htl'
          · rw [he] at hm
            rw [hm] at hr
            cases hr
          · exact ⟨o, htl', m, hm⟩
        obtain ⟨m'', hcol, o', ho', hres⟩ := ih acc b htl
        exact ⟨m'', by simp [collectAux, hr, hcol], o', List.mem_cons_of_mem _ ho', hres⟩
    · have htl : ∃ o ∈ tl, ∃ m, o.result = .error (.auth m) := by
        rcases List.mem_cons.1 ho with he | htl'
        · rw [he] at hm
          rw [hm] at hr
          cases hr
        · exact ⟨o, htl', m, hm⟩
      obtain ⟨m'', hcol, o', ho', hres⟩ :=
        ih (acc ++ prs.map (fun pr => (pr, hd.query_index))) true htl
      exact ⟨m'', by simp [collectAux, hr, hcol], o', List.mem_cons_of_mem _ ho', hres⟩

/-- Whether an outcome succeeded. -/
def outcomeOk (o : QueryOutcome) : Bool :=
  match o.result with
  | .ok _ => true
  | .error _ => false

/-- With no Auth error among the outcomes, the collection loop completes,
and its success flag records whether the flag was already set or some
outcome succeeded. -/
theorem collect_aux_no_auth :
    ∀ (results : List QueryOutcome) (acc : List (PullRequest × Nat)) (b : Bool),
      (∀ o ∈ results, ∀ m, o.result ≠ .error (.auth m)) →
      ∃ prs, collectAux results acc b = .ok (prs, b || results.any outcomeOk) := by
  intro results
  induction results with
  | nil =>
    intro acc b _
    exact ⟨acc, by simp [collectAux]⟩
  | cons hd tl ih =>
    intro acc b hnone
    have hnone' : ∀ o ∈ tl, ∀ m, o.result ≠ .error (.auth m) :=
      fun o ho => hnone o (List.mem_cons_of_mem _ ho)
    rcases hr : hd.result with e | prs
    · rcases e with m' | m'
      · exact absurd hr (hnone hd (List.mem_cons_self _ _) m')
      · obtain ⟨prs', hcol⟩ := ih acc b hnone'
        refine ⟨prs', ?_⟩
        rw [show (hd :: tl).any outcomeOk = tl.any outcomeOk by
          simp [List.any_cons, outcomeOk, hr]]
        simp [collectAux, hr, hcol]
    · obtain ⟨prs', hcol⟩ := ih (acc ++ prs.map (fun pr => (pr, hd.query_index))) true hnone'
      refine ⟨prs', ?_⟩
      rw [show (hd :: tl).any outcomeOk = true by
        simp [List.any_cons, outcomeOk, hr]]
      simp [collectAux, hr, hcol]

/-- C6: if any per-query result carries an Auth error, the result-collection
phase of `fetch_and_score_prs` aborts with an Auth error carried by one of
the queries, regardless of the other outcomes; with no Auth error, every
other failure is skipped and the phase succeeds whenever at least one query
succeeded or the query list is empty. -/
theorem claim_C6 (results : List QueryOutcome) :
    ((∃ o ∈ results, ∃ m, o.result = .error (.auth m)) →
      ∃ m, collect_query_results results = .error (.auth m) ∧
        ∃ o ∈ results, o.result = .error (.auth m)) ∧
    ((∀ o ∈ results, ∀ m, o.result ≠ .error (.auth m)) →
      ((∃ o ∈ results, outcomeOk o = true) ∨ results = []) →
      ∃ prs, collect_query_results results = .ok prs) := by
  constructor
  · intro hauth
    obtain ⟨m, hcol, hwit⟩ := collect_aux_auth results [] false hauth
    exact ⟨m, by simp [collect_query_results, hcol], hwit⟩
  · intro hnone hok
    obtain ⟨prs, hcol⟩ := collect_aux_no_auth results [] false hnone
    rcases hok with ⟨o, ho, hook⟩ | hempty
    · have hany : results.any outcomeOk = true := List.any_eq_true.2 ⟨o, ho, hook⟩
      rw [hany] at hcol
      exact ⟨prs, by simp [collect_query_results, hcol]⟩
    · subst hempty
      exact ⟨prs, by simp [collect_query_results, hcol]⟩

/-- C6 witness: with query 1 of three carrying an Auth error the phase
returns that Auth error; and with one timeout and one success and no Auth
error the phase succeeds. -/
theorem claim_C6_witness :
    (∃ m, collect_query_results c6authList = .error (.auth m) ∧
      ∃ o ∈ c6authList, o.result = .error (.auth m)) ∧
    (∃ prs, collect_query_results c6okList = .ok prs) :=
  ⟨(claim_C6 c6authList).1
      ⟨{ query_index := 1, result := .error (.auth "Authentication failed.") },
        by simp [c6authList], "Authentication failed.", rfl⟩,
    (claim_C6 c6okList).2
      (by
        intro o ho m
        rcases List.mem_cons.1 ho with he | ho'
        · subst he
          intro hx
          cases hx
        · rcases List.mem_cons.1 ho' with he | ho''
          · subst he
            intro hx
            cases hx
          · cases ho'')
      (Or.inl ⟨{ query_index := 1, result := .ok [c5pr] }, by simp [c6okList], rfl⟩)⟩

/-- Soundness of the overlap test: a value matched by both ranges makes
`do_ranges_overlap` report an overlap. -/
theorem do_ranges_overlap_sound (r1 r2 : RangeOp) (v : Nat)
    (h1 : r1.matches v = true) (h2 : r2.matches v = true) :
    do_ranges_overlap r1 r2 = true := by
  cases r1 <;> cases r2 <;>
    simp [RangeOp.matches, do_ranges_overlap] at * <;> omega

/-- A scan that returns `ok` found no error at any probe. -/
theorem firstErr_ok {α : Type} (f : α → Except String Unit) :
    ∀ l : List α, firstErr f l = .ok () → ∀ x ∈ l, f x = .ok () := by
  intro l
  induction l with
  | nil =>
    intro _ x hx
    cases hx
  | cons hd tl ih =>
    intro h x hx
    rcases hf : f hd with e | u
    · rw [firstErr, hf] at h
      cases h
    · cases u
      rw [firstErr, hf] at h
      rcases List.mem_cons.1 hx with he | hx'
      · rw [he]
        exact hf
      · exact ih h x hx'

/-- Every in-order index pair is visited by the overlap scan. -/
theorem mem_overlapPairs (i j n : Nat) (hij : i < j) (hj : j < n) :
    (i, j) ∈ overlapPairs n := by
  unfold overlapPairs
  refine List.mem_flatMap.2 ⟨i, List.mem_range.2 (lt_trans hij hj), ?_⟩
  exact List.mem_map.2 ⟨j, List.mem_filter.2 ⟨List.mem_range.2 hj, by simpa using hij⟩, rfl⟩

/-- C7 (amended): if some unsigned integer is matched by the parsed ranges of
two buckets of the same list, config validation flags the list as having an
overlap; in particular `<=100` and `>=100` in the same bucket list are
reported with an error message citing both range strings.  (The converse
direction of the original claim fails for unsatisfiable ranges; see the
counterexample.) -/
theorem claim_C7_amended (buckets : List SizeBucket) (i j : Nat) (r1 r2 : RangeOp) (v : Nat)
    (hij : i < j) (hj : j < buckets.length)
    (hp1 : RangeOp.parse (buckets.getD i dfltBucket).range = .ok r1)
    (hp2 : RangeOp.parse (buckets.getD j dfltBucket).range = .ok r2)
    (hm1 : r1.matches v = true) (hm2 : r2.matches v = true) :
    (∃ msg, check_bucket_overlaps buckets = .error msg) ∧
    (∃ msg, check_bucket_overlaps c7buckets = .error msg ∧
      strContains msg "<=100" = true ∧ strContains msg ">=100" = true) := by
  constructor
  · rcases hres : check_bucket_overlaps buckets with msg | u
    · exact ⟨msg, rfl⟩
    · exfalso
      cases u
      have hall :=
        firstErr_ok (checkPair buckets) (overlapPairs buckets.length) hres (i, j)
          (mem_overlapPairs i j buckets.length hij hj)
      unfold checkPair at hall
      rw [hp1, hp2] at hall
      simp [do_ranges_overlap_sound r1 r2 v hm1 hm2] at hall
  · exact ⟨"scoring.size.buckets: overlapping ranges at buckets[0] ('<=100') and buckets[1] ('>=100')",
      by decide, by decide, by decide⟩

/-- C7 witness: the two-bucket list `<=100`, `>=100` (both matched by 100) is
flagged, and the error message cites both range strings. -/
theorem claim_C7_witness :
    (∃ msg, check_bucket_overlaps c7buckets = .error msg) ∧
    (∃ msg, check_bucket_overlaps c7buckets = .error msg ∧
      strContains msg "<=100" = true ∧ strContains msg ">=100" = true) :=
  claim_C7_amended c7buckets 0 1 (.lessEqual 100) (.greaterEqual 100) 100
    (by decide) (by decide) (by decide) (by decide) (by decide) (by decide)

/-- C7 counterexample: the claimed "only if" direction fails.  The two
buckets with range `"<0"` are flagged as overlapping although no unsigned
integer is matched by both ranges (none matches `"<0"` at all). -/
theorem claim_C7_counterexample :
    (∃ msg, check_bucket_overlaps c7emptyBuckets = .error msg) ∧
    RangeOp.parse "<0" = .ok (.lessThan 0) ∧
    ¬∃ v : Nat, (RangeOp.lessThan 0).matches v = true ∧ (RangeOp.lessThan 0).matches v = true := by
  refine ⟨⟨"scoring.size.buckets: overlapping ranges at buckets[0] ('<0') and buckets[1] ('<0')",
      by decide⟩, by decide, ?_⟩
  rintro ⟨v, hv, -⟩
  simp [RangeOp.matches] at hv

/-- C8: evaluation of `calculate_score` at the input of the repository's own
`test_size_uses_filtered_size` unit test.  `PullRequest::size` as written in
`src/github/types.rs` returns `additions + deletions` without consulting
`filtered_size`, so the engine buckets the aggregate size 1000 instead of the
filtered size 50 and scores 100 where the test (and the spec) demand 500. -/
theorem claim_C8_code_bug :
    (calculate_score 0 c8pr c8cfg).score = 100 ∧ (100 : ℚ) ≠ 500 := by
  constructor
  · have h1 : RangeOp.parse "<100" = .ok (.lessThan 100) := by decide
    have h2 : RangeOp.parse ">=100" = .ok (.greaterEqual 100) := by decide
    have h3 : Effect.parse "x1" = .ok (.multiply 1) := by decide
    simp [calculate_score, age_step, approvals_step, size_step, labels_step, reviewed_step,
      c8cfg, c8buckets, c8pr, h1, h2, h3, apply_bucket_effect, PullRequest.size,
      RangeOp.matches, Effect.apply]
  · norm_num

/-- C9 counterexample: with the approvals effect `"+10 per 2"` and one
approval, the claimed reading `A * floor(k / N)` predicts a contribution of
`10 * (1 / 2) = 0` and a final score of 100, but `calculate_score` uses the
approval count itself as the unit count and yields 110. -/
theorem claim_C9_counterexample :
    (calculate_score 0 c9pr c9cfg).score = 110 ∧
    (110 : ℚ) ≠ 100 + 10 * ((1 / 2 : Nat) : ℚ) := by
  constructor
  · have hp : approvals_parseable "+10 per 2" = "+10 per 1sec" := by decide
    have h : Effect.parse "+10 per 1sec" = .ok (.addPerUnit 10 1000000000) := by decide
    simp [calculate_score, age_step, approvals_step, size_step, labels_step, reviewed_step,
      c9cfg, c9pr, hp, h, Effect.apply]
    norm_num
  · norm_num

/-- C9 (amended): an approvals effect string of the form
`"<effect> per <N>"` with a bare number `<N>` is reinterpreted through the
nominal one-second substitution, and the approval count itself supplies the
unit count: for an additive form parsing to `AddPerUnit a _`, an item with
`k` approvals scores `max (100 + a * k) 0` (with only the approvals factor
configured), for every wall-clock time — no elapsed-time computation is
involved, and the bare `<N>` does not group approvals. -/
theorem claim_C9_amended (s ep pp : String) (a : ℚ) (d : Nat) (pr : PullRequest)
    (hsplit : splitOnce s " per " = some (ep, pp))
    (hnum : (trimStr pp).data.all (fun c => c.isDigit || c = '.') = true)
    (hparse : Effect.parse (ep ++ " per 1sec") = .ok (.addPerUnit a d)) :
    ∀ now : Int,
      (calculate_score now pr
        { base_score := none, age := none, approvals := some s, size := none,
          labels := none, previously_reviewed := none }).score =
        max (100 + a * (pr.approvals : ℚ)) 0 := by
  intro now
  have hp : approvals_parseable s = ep ++ " per 1sec" := by
    simp [approvals_parseable, hsplit, hnum]
  simp [calculate_score, age_step, approvals_step, size_step, labels_step, reviewed_step,
    hp, hparse, Effect.apply]

/-- C9 witness: the amended statement at the concrete effect string
`"+10 per 2"` and an item with one approval. -/
theorem claim_C9_witness :
    (calculate_score 0 c9pr
      { base_score := none, age := none, approvals := some "+10 per 2", size := none,
        labels := none, previously_reviewed := none }).score =
      max (100 + 10 * ((c9pr.approvals : ℚ))) 0 :=
  claim_C9_amended "+10 per 2" "+10" "2" 10 1000000000 c9pr
    (by decide) (by decide) (by decide) 0

end PrBro
